import Mathlib

-- Shallow embedding of the video upload bot (main.py).
-- Network and filesystem effects are modelled by outcome oracles (Env);
-- each helper returns the list of observable events it performs.

namespace VideoBot

def FLIC_TOKEN : String :=
  "flic_cc31c3b62fb1d38d9d1e5472c1076c5331e26b05b1c6b8f38829e76d9d6a2aae"

structure Headers where
  flicToken : Option String
  contentType : Option String
deriving DecidableEq

-- HEADERS = {"Flic-Token": FLIC_TOKEN, "Content-Type": "application/json"}
def HEADERS : Headers :=
  { flicToken := some FLIC_TOKEN, contentType := some "application/json" }

-- A fresh aiohttp session with no application-supplied headers.
def noHeaders : Headers := { flicToken := none, contentType := none }

-- A decoded JSON object body (python dict of strings).
abbrev Dict := List (String × String)

def dictLookup (k : String) : Dict → Option String
  | [] => none
  | (k2, v) :: rest => if k2 = k then some v else dictLookup k rest

inductive LogEvent where
  | info (msg : String)
  | error (msg : String)
deriving DecidableEq

def LogEvent.isError : LogEvent → Bool
  | LogEvent.error _ => true
  | _ => false

-- JSON body of the create_post POST request.
structure PostBody where
  title : String
  hash : String
  is_available_in_public_feed : Bool
  category_id : Nat
deriving DecidableEq

inductive Event where
  | httpGet (url : String) (hdrs : Headers)
  | httpPut (url : String) (hdrs : Headers) (body : List Nat)
  | httpPost (url : String) (hdrs : Headers) (body : PostBody)
  | fileRead (path : String)
  | barUpdate (n : Nat)
  | barClose
  | fileRemove (path : String)
  | log (entry : LogEvent)
deriving DecidableEq

def Event.isPut : Event → Bool
  | Event.httpPut _ _ _ => true
  | _ => false

def Event.isPost : Event → Bool
  | Event.httpPost _ _ _ => true
  | _ => false

def Event.isRemove : Event → Bool
  | Event.fileRemove _ => true
  | _ => false

def Event.isBarUpdate : Event → Bool
  | Event.barUpdate _ => true
  | _ => false

def Event.touchesFile : Event → Bool
  | Event.fileRead _ => true
  | Event.fileRemove _ => true
  | _ => false

def Event.isErrorLog : Event → Bool
  | Event.log (LogEvent.error _) => true
  | _ => false

def errorLogged (evs : List Event) : Bool := evs.any Event.isErrorLog

-- tqdm_asyncio progress bar state.
structure Bar where
  desc : String
  total : Nat
  count : Nat
  closed : Bool
deriving DecidableEq

def Bar.update (b : Bar) (n : Nat) : Bar := { b with count := b.count + n }

def Bar.close (b : Bar) : Bar := { b with closed := true }

-- Result of decoding the destination-request response body (response.json()).
inductive Decoded where
  | ok (kvs : Dict)
  | fail
deriving DecidableEq

-- Outcome oracle for the GET in get_upload_url: a transport exception, or a
-- response with a status code and (when examined) a decodable or not body.
inductive GetOutcome where
  | exn
  | resp (status : Nat) (body : Decoded)
deriving DecidableEq

inductive ReadResult where
  | ok (data : List Nat)
  | exn
deriving DecidableEq

inductive PutOutcome where
  | exn
  | resp (status : Nat)
deriving DecidableEq

inductive PostOutcome where
  | exn
  | resp (status : Nat)
deriving DecidableEq

def uploadUrlEndpoint : String :=
  "https://api.socialverseapp.com/posts/generate-upload-url"

def postsEndpoint : String := "https://api.socialverseapp.com/posts"

-- async def get_upload_url(session)
def get_upload_url (o : GetOutcome) : Option Dict × List Event :=
  let call := Event.httpGet uploadUrlEndpoint HEADERS
  match o with
  | GetOutcome.exn =>
      (none, [call, Event.log (LogEvent.error "Error in get_upload_url")])
  | GetOutcome.resp status body =>
      if status = 200 then
        match body with
        | Decoded.ok kvs => (some kvs, [call])
        | Decoded.fail =>
            (none, [call, Event.log (LogEvent.error "Error in get_upload_url")])
      else
        (none, [call, Event.log (LogEvent.error "Failed to get upload URL")])

-- async def upload_video(file_path, upload_url, progress_bar)
def upload_video (file_path upload_url : String) (bar : Bar)
    (readRes : ReadResult) (po : PutOutcome) : Bar × List Event :=
  match readRes with
  | ReadResult.exn =>
      (bar, [Event.fileRead file_path, Event.log (LogEvent.error "Error in upload_video")])
  | ReadResult.ok data =>
      let bar1 := bar.update data.length
      let pre := [Event.fileRead file_path, Event.barUpdate data.length,
                  Event.httpPut upload_url noHeaders data]
      match po with
      | PutOutcome.exn =>
          (bar1, pre ++ [Event.log (LogEvent.error "Error in upload_video")])
      | PutOutcome.resp status =>
          if status = 200 then
            (bar1.close,
             pre ++ [Event.log (LogEvent.info "Video uploaded successfully."), Event.barClose])
          else
            (bar1, pre ++ [Event.log (LogEvent.error "Failed to upload video")])

-- async def create_post(session, video_title, video_hash, category_id)
def create_post (video_title video_hash : String) (category_id : Nat)
    (po : PostOutcome) : List Event :=
  let body : PostBody :=
    { title := video_title, hash := video_hash,
      is_available_in_public_feed := true, category_id := category_id }
  let call := Event.httpPost postsEndpoint HEADERS body
  match po with
  | PostOutcome.exn => [call, Event.log (LogEvent.error "Error in create_post")]
  | PostOutcome.resp status =>
      if status = 200 then
        [call, Event.log (LogEvent.info "Post created successfully")]
      else
        [call, Event.log (LogEvent.error "Failed to create post")]

-- Per-run oracle: outcomes of the three network calls and the file read.
structure Env where
  getOut : GetOutcome
  readOk : Bool
  putOut : PutOutcome
  postOut : PostOutcome
deriving DecidableEq

inductive RunResult where
  | finished
  | abortedNoDest
  | raisedKeyError (key : String)
deriving DecidableEq

-- os.path.basename (posix separator).
def basename (p : String) : String :=
  String.mk ((p.data.reverse.takeWhile (fun c => !(c == '/'))).reverse)

-- async def upload_process(video_path); the watched file is present with
-- contents `file`, so os.path.getsize returns file.length and a successful
-- read returns file.
def upload_process (video_path : String) (file : List Nat) (env : Env) :
    RunResult × Option Bar × List Event :=
  let r1 := get_upload_url env.getOut
  match r1.1 with
  | none => (RunResult.abortedNoDest, none, r1.2)
  | some upload_info =>
    if upload_info.isEmpty then (RunResult.abortedNoDest, none, r1.2)
    else
      match dictLookup "url" upload_info with
      | none => (RunResult.raisedKeyError "url", none, r1.2)
      | some upload_url =>
        match dictLookup "hash" upload_info with
        | none => (RunResult.raisedKeyError "hash", none, r1.2)
        | some video_hash =>
          let file_size := file.length
          let bar0 : Bar :=
            { desc := "Uploading " ++ basename video_path, total := file_size,
              count := 0, closed := false }
          let readRes := if env.readOk then ReadResult.ok file else ReadResult.exn
          let r2 := upload_video video_path upload_url bar0 readRes env.putOut
          let evs3 := create_post (basename video_path) video_hash 25 env.postOut
          (RunResult.finished, some (Bar.close r2.1),
            r1.2 ++ r2.2 ++ evs3 ++
              [Event.fileRemove video_path, Event.log (LogEvent.info "Deleted local file")])

-- Python str.endswith over the character lists.
def startsWithChars : List Char → List Char → Bool
  | [], _ => true
  | _ :: _, [] => false
  | a :: as, b :: bs => a == b && startsWithChars as bs

def strEndsWith (s pat : String) : Bool :=
  startsWithChars pat.data.reverse s.data.reverse

-- watchdog creation event as seen by VideoHandler.on_created.
structure FSEvent where
  src_path : String
  is_directory : Bool
deriving DecidableEq

-- VideoHandler.on_created: the list of pipeline runs scheduled for the event.
def on_created (e : FSEvent) : List String :=
  if strEndsWith e.src_path ".mp4" then [e.src_path] else []

-- All runs scheduled by the watcher across a stream of creation events.
def scheduled_runs (evts : List FSEvent) : List String :=
  evts.foldr (fun e acc => on_created e ++ acc) []

-- The watcher dispatches each scheduled run with its own file and oracle.
def process_events (evts : List FSEvent) (files : String → List Nat)
    (envs : String → Env) : List (String × RunResult) :=
  (scheduled_runs evts).map (fun q => (q, (upload_process q (files q) (envs q)).1))

-- Derived classifications used by the theorems.

def getFailed (o : GetOutcome) : Bool := ((get_upload_url o).1).isNone

-- get_upload_url produced a usable destination: a truthy dict holding both keys.
def destSuccess (o : GetOutcome) : Bool :=
  match (get_upload_url o).1 with
  | none => false
  | some kvs =>
      !kvs.isEmpty && (dictLookup "url" kvs).isSome && (dictLookup "hash" kvs).isSome

def putFailed : PutOutcome → Bool
  | PutOutcome.exn => true
  | PutOutcome.resp status => !(decide (status = 200))

def postFailed : PostOutcome → Bool
  | PostOutcome.exn => true
  | PostOutcome.resp status => !(decide (status = 200))

def anyFailure (env : Env) : Bool :=
  getFailed env.getOut ||
    (destSuccess env.getOut &&
      (!env.readOk || putFailed env.putOut || postFailed env.postOut))

-- The destination body, whenever decoded and truthy, carries both keys.
def wellFormedBody (o : GetOutcome) : Bool :=
  match (get_upload_url o).1 with
  | none => true
  | some kvs =>
      kvs.isEmpty || ((dictLookup "url" kvs).isSome && (dictLookup "hash" kvs).isSome)

def headerOk : Event → Bool
  | Event.httpGet _ hdrs => decide (hdrs = HEADERS)
  | Event.httpPost _ hdrs _ => decide (hdrs = HEADERS)
  | Event.httpPut _ hdrs _ => decide (hdrs = noHeaders)
  | _ => true

def putWithSharedHeaders : Event → Bool
  | Event.httpPut _ hdrs _ => decide (hdrs = HEADERS)
  | _ => false

-- The pair a, b occurs adjacently (in this order) in the list.
def adjacentPair (a b : Event) : List Event → Bool
  | x :: y :: rest => (decide (x = a) && decide (y = b)) || adjacentPair a b (y :: rest)
  | _ => false

-- The trace ends with the file removal followed by its log line.
def endsWithRemoval (p : String) (evs : List Event) : Bool :=
  match evs.reverse with
  | Event.log (LogEvent.info m) :: Event.fileRemove q :: _ =>
      decide (q = p) && decide (m = "Deleted local file")
  | _ => false

-- Concrete inputs reused by witnesses and counterexamples.

def clipPath : String := "./videos/clip.mp4"

def clipFile : List Nat := [7, 7]

def destOkDict : Dict := [("url", "https://x/up"), ("hash", "abc123")]

def envAllOk : Env :=
  ⟨GetOutcome.resp 200 (Decoded.ok destOkDict), true, PutOutcome.resp 200, PostOutcome.resp 200⟩

def envGetExn : Env :=
  ⟨GetOutcome.exn, true, PutOutcome.resp 200, PostOutcome.resp 200⟩

def envMissingKeys : Env :=
  ⟨GetOutcome.resp 200 (Decoded.ok [("foo", "bar")]), true, PutOutcome.resp 200, PostOutcome.resp 200⟩

def envTransferFails : Env :=
  ⟨GetOutcome.resp 200 (Decoded.ok destOkDict), true, PutOutcome.resp 500, PostOutcome.exn⟩

-- Events that neither issue a PUT or POST, nor touch the file, nor move the bar.
def passiveB (e : Event) : Bool :=
  !e.isPut && !e.isPost && !e.touchesFile && !e.isBarUpdate

lemma any_isPut_eq_false_of_passive (l : List Event) (h : l.all passiveB = true) :
    l.any Event.isPut = false := by
  rw [List.any_eq_false]
  intro x hx
  have hp := (List.all_eq_true.mp h) x hx
  simp only [passiveB, Bool.and_eq_true, Bool.not_eq_true'] at hp
  simp [hp.1.1.1]

lemma any_isPost_eq_false_of_passive (l : List Event) (h : l.all passiveB = true) :
    l.any Event.isPost = false := by
  rw [List.any_eq_false]
  intro x hx
  have hp := (List.all_eq_true.mp h) x hx
  simp only [passiveB, Bool.and_eq_true, Bool.not_eq_true'] at hp
  simp [hp.1.1.2]

lemma any_touchesFile_eq_false_of_passive (l : List Event) (h : l.all passiveB = true) :
    l.any Event.touchesFile = false := by
  rw [List.any_eq_false]
  intro x hx
  have hp := (List.all_eq_true.mp h) x hx
  simp only [passiveB, Bool.and_eq_true, Bool.not_eq_true'] at hp
  simp [hp.1.2]

lemma any_isBarUpdate_eq_false_of_passive (l : List Event) (h : l.all passiveB = true) :
    l.any Event.isBarUpdate = false := by
  rw [List.any_eq_false]
  intro x hx
  have hp := (List.all_eq_true.mp h) x hx
  simp only [passiveB, Bool.and_eq_true, Bool.not_eq_true'] at hp
  simp [hp.2]

lemma get_upload_url_events_passive (o : GetOutcome) :
    (get_upload_url o).2.all passiveB = true := by
  cases o with
  | exn => decide
  | resp status body =>
    by_cases hs : status = 200
    · cases body <;> simp [get_upload_url, hs] <;> decide
    · simp [get_upload_url, hs]
      decide

lemma get_upload_url_some_iff (o : GetOutcome) (kvs : Dict) :
    (get_upload_url o).1 = some kvs ↔ o = GetOutcome.resp 200 (Decoded.ok kvs) := by
  cases o with
  | exn => simp [get_upload_url]
  | resp status body =>
    by_cases hs : status = 200
    · subst hs
      cases body <;> simp [get_upload_url]
    · cases body <;> simp [get_upload_url, hs]

lemma get_upload_url_none_logs (o : GetOutcome)
    (h : (get_upload_url o).1 = none) :
    errorLogged (get_upload_url o).2 = true := by
  cases o with
  | exn => decide
  | resp status body =>
    by_cases hs : status = 200
    · cases body with
      | ok kvs => simp [get_upload_url, hs] at h
      | fail => simp [get_upload_url, hs, errorLogged] ; decide
    · simp [get_upload_url, hs, errorLogged]
      decide

-- Unfolding lemmas for the four control paths of upload_process.

lemma run_none (p : String) (file : List Nat) (env : Env)
    (h1 : (get_upload_url env.getOut).1 = none) :
    upload_process p file env =
      (RunResult.abortedNoDest, none, (get_upload_url env.getOut).2) := by
  simp only [upload_process, h1]

lemma run_empty (p : String) (file : List Nat) (env : Env)
    (h1 : (get_upload_url env.getOut).1 = some []) :
    upload_process p file env =
      (RunResult.abortedNoDest, none, (get_upload_url env.getOut).2) := by
  simp only [upload_process, h1, List.isEmpty_nil, if_true]

lemma run_keyerr_url (p : String) (file : List Nat) (env : Env) (kvs : Dict)
    (h1 : (get_upload_url env.getOut).1 = some kvs)
    (hne : kvs.isEmpty = false)
    (hu : dictLookup "url" kvs = none) :
    upload_process p file env =
      (RunResult.raisedKeyError "url", none, (get_upload_url env.getOut).2) := by
  simp only [upload_process, h1, hne, Bool.false_eq_true, if_false, hu]

lemma run_keyerr_hash (p : String) (file : List Nat) (env : Env) (kvs : Dict) (u : String)
    (h1 : (get_upload_url env.getOut).1 = some kvs)
    (hne : kvs.isEmpty = false)
    (hu : dictLookup "url" kvs = some u)
    (hh : dictLookup "hash" kvs = none) :
    upload_process p file env =
      (RunResult.raisedKeyError "hash", none, (get_upload_url env.getOut).2) := by
  simp only [upload_process, h1, hne, Bool.false_eq_true, if_false, hu, hh]

lemma dictLookup_ne_nil (k : String) (kvs : Dict) (v : String)
    (h : dictLookup k kvs = some v) : kvs.isEmpty = false := by
  cases kvs with
  | nil => simp [dictLookup] at h
  | cons a t => rfl

lemma run_success (p : String) (file : List Nat) (env : Env) (kvs : Dict) (u h : String)
    (h1 : (get_upload_url env.getOut).1 = some kvs)
    (hu : dictLookup "url" kvs = some u)
    (hh : dictLookup "hash" kvs = some h) :
    upload_process p file env =
      (RunResult.finished,
       some (Bar.close
         (upload_video p u
           { desc := "Uploading " ++ basename p, total := file.length, count := 0, closed := false }
           (if env.readOk then ReadResult.ok file else ReadResult.exn) env.putOut).1),
       (get_upload_url env.getOut).2 ++
         (upload_video p u
           { desc := "Uploading " ++ basename p, total := file.length, count := 0, closed := false }
           (if env.readOk then ReadResult.ok file else ReadResult.exn) env.putOut).2 ++
         create_post (basename p) h 25 env.postOut ++
         [Event.fileRemove p, Event.log (LogEvent.info "Deleted local file")]) := by
  have hne : kvs.isEmpty = false := dictLookup_ne_nil _ _ _ hu
  simp only [upload_process, h1, hne, Bool.false_eq_true, if_false, hu, hh]

-- Lemmas about upload_video.

lemma uv_bar_total (p u : String) (bar : Bar) (rr : ReadResult) (po : PutOutcome) :
    ((upload_video p u bar rr po).1).total = bar.total := by
  cases rr with
  | exn => rfl
  | ok data =>
    cases po with
    | exn => rfl
    | resp status =>
      by_cases hs : status = 200 <;> simp [upload_video, hs, Bar.update, Bar.close]

lemma uv_bar_count_ok (p u : String) (bar : Bar) (data : List Nat) (po : PutOutcome) :
    ((upload_video p u bar (ReadResult.ok data) po).1).count = bar.count + data.length := by
  cases po with
  | exn => rfl
  | resp status =>
    by_cases hs : status = 200 <;> simp [upload_video, hs, Bar.update, Bar.close]

lemma uv_bar_count_exn (p u : String) (bar : Bar) (po : PutOutcome) :
    ((upload_video p u bar ReadResult.exn po).1).count = bar.count := rfl

lemma uv_filter_barUpdate_ok (p u : String) (bar : Bar) (data : List Nat) (po : PutOutcome) :
    ((upload_video p u bar (ReadResult.ok data) po).2).filter Event.isBarUpdate
      = [Event.barUpdate data.length] := by
  cases po with
  | exn => simp [upload_video, Event.isBarUpdate, List.filter]
  | resp status =>
    by_cases hs : status = 200 <;>
      simp [upload_video, hs, Event.isBarUpdate, List.filter]

lemma uv_filter_barUpdate_exn (p u : String) (bar : Bar) (po : PutOutcome) :
    ((upload_video p u bar ReadResult.exn po).2).filter Event.isBarUpdate = [] := by
  simp [upload_video, Event.isBarUpdate, List.filter]

lemma uv_headerOk (p u : String) (bar : Bar) (rr : ReadResult) (po : PutOutcome) :
    ((upload_video p u bar rr po).2).all headerOk = true := by
  cases rr with
  | exn => simp [upload_video, headerOk]
  | ok data =>
    cases po with
    | exn => simp [upload_video, headerOk]
    | resp status =>
      by_cases hs : status = 200 <;> simp [upload_video, hs, headerOk]

lemma uv_no_post (p u : String) (bar : Bar) (rr : ReadResult) (po : PutOutcome) :
    ((upload_video p u bar rr po).2).any Event.isPost = false := by
  cases rr with
  | exn => simp [upload_video, Event.isPost]
  | ok data =>
    cases po with
    | exn => simp [upload_video, Event.isPost]
    | resp status =>
      by_cases hs : status = 200 <;> simp [upload_video, hs, Event.isPost]

lemma uv_has_put (p u : String) (bar : Bar) (data : List Nat) (po : PutOutcome) :
    ((upload_video p u bar (ReadResult.ok data) po).2).any Event.isPut = true := by
  cases po with
  | exn => simp [upload_video, Event.isPut]
  | resp status =>
    by_cases hs : status = 200 <;> simp [upload_video, hs, Event.isPut]

lemma uv_error_log_readExn (p u : String) (bar : Bar) (po : PutOutcome) :
    errorLogged (upload_video p u bar ReadResult.exn po).2 = true := by
  simp [upload_video, errorLogged, Event.isErrorLog]

lemma uv_error_log_putFailed (p u : String) (bar : Bar) (data : List Nat) (po : PutOutcome)
    (h : putFailed po = true) :
    errorLogged (upload_video p u bar (ReadResult.ok data) po).2 = true := by
  cases po with
  | exn => simp [upload_video, errorLogged, Event.isErrorLog]
  | resp status =>
    have hs : ¬status = 200 := by
      simp [putFailed] at h
      exact h
    simp [upload_video, hs, errorLogged, Event.isErrorLog]

-- Lemmas about create_post.

lemma cp_contains_call (t hsh : String) (cid : Nat) (po : PostOutcome) :
    Event.httpPost postsEndpoint HEADERS
      { title := t, hash := hsh, is_available_in_public_feed := true, category_id := cid }
      ∈ create_post t hsh cid po := by
  cases po with
  | exn => simp [create_post]
  | resp status => by_cases hs : status = 200 <;> simp [create_post, hs]

lemma cp_posts (t hsh : String) (cid : Nat) (po : PostOutcome) (url : String)
    (hdrs : Headers) (body : PostBody)
    (h : Event.httpPost url hdrs body ∈ create_post t hsh cid po) :
    url = postsEndpoint ∧ hdrs = HEADERS ∧
      body = { title := t, hash := hsh, is_available_in_public_feed := true, category_id := cid } := by
  cases po with
  | exn =>
    simp [create_post] at h
    exact h
  | resp status =>
    by_cases hs : status = 200 <;> simp [create_post, hs] at h <;> exact h

lemma cp_headerOk (t hsh : String) (cid : Nat) (po : PostOutcome) :
    (create_post t hsh cid po).all headerOk = true := by
  cases po with
  | exn => simp [create_post, headerOk]
  | resp status => by_cases hs : status = 200 <;> simp [create_post, hs, headerOk]

lemma cp_no_put (t hsh : String) (cid : Nat) (po : PostOutcome) :
    (create_post t hsh cid po).any Event.isPut = false := by
  cases po with
  | exn => simp [create_post, Event.isPut]
  | resp status => by_cases hs : status = 200 <;> simp [create_post, hs, Event.isPut]

lemma cp_filter_barUpdate (t hsh : String) (cid : Nat) (po : PostOutcome) :
    (create_post t hsh cid po).filter Event.isBarUpdate = [] := by
  cases po with
  | exn => simp [create_post, Event.isBarUpdate, List.filter]
  | resp status =>
    by_cases hs : status = 200 <;> simp [create_post, hs, Event.isBarUpdate, List.filter]

lemma cp_error_log (t hsh : String) (cid : Nat) (po : PostOutcome)
    (h : postFailed po = true) : errorLogged (create_post t hsh cid po) = true := by
  cases po with
  | exn => simp [create_post, errorLogged, Event.isErrorLog]
  | resp status =>
    have hs : ¬status = 200 := by
      simp [postFailed] at h
      exact h
    simp [create_post, hs, errorLogged, Event.isErrorLog]

-- Adjacency infrastructure.

lemma adjacentPair_cons (a b x : Event) (l : List Event)
    (h : adjacentPair a b l = true) : adjacentPair a b (x :: l) = true := by
  cases l with
  | nil => simp [adjacentPair] at h
  | cons y t =>
    have he : adjacentPair a b (x :: y :: t) =
        ((decide (x = a) && decide (y = b)) || adjacentPair a b (y :: t)) := rfl
    rw [he, h, Bool.or_true]

lemma adjacentPair_append_left (a b : Event) (l₁ l₂ : List Event)
    (h : adjacentPair a b l₂ = true) : adjacentPair a b (l₁ ++ l₂) = true := by
  induction l₁ with
  | nil => simpa using h
  | cons x xs ih => exact adjacentPair_cons a b x _ ih

lemma adjacentPair_append_right (a b : Event) (l₁ l₂ : List Event)
    (h : adjacentPair a b l₁ = true) : adjacentPair a b (l₁ ++ l₂) = true := by
  induction l₁ with
  | nil => simp [adjacentPair] at h
  | cons x xs ih =>
    cases xs with
    | nil => simp [adjacentPair] at h
    | cons y t =>
      have hx : adjacentPair a b (x :: y :: t) =
          ((decide (x = a) && decide (y = b)) || adjacentPair a b (y :: t)) := rfl
      rw [hx] at h
      rcases (Bool.or_eq_true _ _).mp h with h1 | h2
      · show adjacentPair a b (x :: ((y :: t) ++ l₂)) = true
        have hy : adjacentPair a b (x :: y :: (t ++ l₂)) =
            ((decide (x = a) && decide (y = b)) || adjacentPair a b (y :: (t ++ l₂))) := rfl
        rw [List.cons_append, hy, h1, Bool.true_or]
      · exact adjacentPair_cons a b x _ (ih h2)

lemma uv_adjacent (p u : String) (bar : Bar) (data : List Nat) (po : PutOutcome) :
    adjacentPair (Event.fileRead p) (Event.barUpdate data.length)
      ((upload_video p u bar (ReadResult.ok data) po).2) = true := by
  cases po with
  | exn => simp [upload_video, adjacentPair]
  | resp status =>
    by_cases hs : status = 200 <;> simp [upload_video, hs, adjacentPair]

-- Filter helper via passivity.

lemma filter_barUpdate_eq_nil_of_passive (l : List Event) (h : l.all passiveB = true) :
    l.filter Event.isBarUpdate = [] := by
  have hany := any_isBarUpdate_eq_false_of_passive l h
  rw [List.any_eq_false] at hany
  rw [List.filter_eq_nil_iff]
  exact hany

-- str.endswith agrees with the existence of a string prefix.

lemma startsWithChars_iff (l₁ l₂ : List Char) :
    startsWithChars l₁ l₂ = true ↔ ∃ t, l₂ = l₁ ++ t := by
  induction l₁ generalizing l₂ with
  | nil => simp [startsWithChars]
  | cons a as ih =>
    cases l₂ with
    | nil => simp [startsWithChars]
    | cons b bs =>
      have he : startsWithChars (a :: as) (b :: bs) = (a == b && startsWithChars as bs) := rfl
      rw [he, Bool.and_eq_true, beq_iff_eq, ih]
      constructor
      · rintro ⟨rfl, t, rfl⟩
        exact ⟨t, rfl⟩
      · rintro ⟨t, ht⟩
        rw [List.cons_append] at ht
        injection ht with h1 h2
        exact ⟨h1.symm, t, h2⟩

lemma strEndsWith_iff (s pat : String) :
    strEndsWith s pat = true ↔ ∃ pre : String, s = pre ++ pat := by
  rw [strEndsWith, startsWithChars_iff]
  constructor
  · rintro ⟨t, ht⟩
    refine ⟨String.mk t.reverse, ?_⟩
    apply String.ext
    have hd : s.data = (pat.data.reverse ++ t).reverse := by
      rw [← ht, List.reverse_reverse]
    rw [List.reverse_append, List.reverse_reverse] at hd
    rw [String.data_append, hd]
  · rintro ⟨pre, rfl⟩
    refine ⟨pre.data.reverse, ?_⟩
    rw [String.data_append, List.reverse_append]

lemma endsWithRemoval_append (p : String) (l : List Event) :
    endsWithRemoval p
      (l ++ [Event.fileRemove p, Event.log (LogEvent.info "Deleted local file")]) = true := by
  rw [endsWithRemoval, List.reverse_append]
  simp

lemma get_headerOk (o : GetOutcome) : ((get_upload_url o).2).all headerOk = true := by
  cases o with
  | exn => decide
  | resp status body =>
    by_cases hs : status = 200
    · cases body <;> simp [get_upload_url, hs] <;> decide
    · simp [get_upload_url, hs]
      decide

lemma get_contains_call (o : GetOutcome) :
    Event.httpGet uploadUrlEndpoint HEADERS ∈ (get_upload_url o).2 := by
  cases o with
  | exn => simp [get_upload_url]
  | resp status body =>
    by_cases hs : status = 200
    · cases body <;> simp [get_upload_url, hs]
    · simp [get_upload_url, hs]

-- The progress bar and read oracle built by upload_process on the success path.
def mkBar (p : String) (file : List Nat) : Bar :=
  { desc := "Uploading " ++ basename p, total := file.length, count := 0, closed := false }

def mkRead (env : Env) (file : List Nat) : ReadResult :=
  if env.readOk then ReadResult.ok file else ReadResult.exn

lemma run_success_mk (p : String) (file : List Nat) (env : Env) (kvs : Dict) (u h : String)
    (h1 : (get_upload_url env.getOut).1 = some kvs)
    (hu : dictLookup "url" kvs = some u)
    (hh : dictLookup "hash" kvs = some h) :
    upload_process p file env =
      (RunResult.finished,
       some (Bar.close (upload_video p u (mkBar p file) (mkRead env file) env.putOut).1),
       (get_upload_url env.getOut).2 ++
         (upload_video p u (mkBar p file) (mkRead env file) env.putOut).2 ++
         create_post (basename p) h 25 env.postOut ++
         [Event.fileRemove p, Event.log (LogEvent.info "Deleted local file")]) :=
  run_success p file env kvs u h h1 hu hh

-- Either the run stops inside step 1 (its trace is the GET trace), or the
-- destination carried both keys and the full trace shape is produced.
lemma run_trace_cases (p : String) (file : List Nat) (env : Env) :
    (upload_process p file env).2.2 = (get_upload_url env.getOut).2 ∨
    ∃ kvs u h,
      (get_upload_url env.getOut).1 = some kvs ∧
      dictLookup "url" kvs = some u ∧ dictLookup "hash" kvs = some h ∧
      (upload_process p file env).2.2 =
        (get_upload_url env.getOut).2 ++
          (upload_video p u (mkBar p file) (mkRead env file) env.putOut).2 ++
          create_post (basename p) h 25 env.postOut ++
          [Event.fileRemove p, Event.log (LogEvent.info "Deleted local file")] := by
  rcases h1 : (get_upload_url env.getOut).1 with _ | kvs
  · left
    rw [run_none p file env h1]
  · cases kvs with
    | nil =>
      left
      rw [run_empty p file env h1]
    | cons kv t =>
      rcases hu : dictLookup "url" (kv :: t) with _ | u
      · left
        rw [run_keyerr_url p file env (kv :: t) h1 rfl hu]
      · rcases hh : dictLookup "hash" (kv :: t) with _ | w
        · left
          rw [run_keyerr_hash p file env (kv :: t) u h1 rfl hu hh]
        · right
          refine ⟨kv :: t, u, w, rfl, hu, hh, ?_⟩
          rw [run_success_mk p file env (kv :: t) u w h1 hu hh]

lemma process_events_fst (evts : List FSEvent) (files : String → List Nat)
    (envs : String → Env) :
    (process_events evts files envs).map Prod.fst = scheduled_runs evts := by
  simp [process_events, List.map_map, Function.comp_def]

/-- C1: whenever get_upload_url succeeds (HTTP 200 with a body decodable into a
url/hash dictionary), the run finishes and the local file is deleted at the end,
regardless of the outcomes of the byte transfer and the post creation. -/
theorem upload_process_deletes_after_dest_success
    (p : String) (file : List Nat) (env : Env) (kvs : Dict) (u h : String)
    (hget : env.getOut = GetOutcome.resp 200 (Decoded.ok kvs))
    (hu : dictLookup "url" kvs = some u)
    (hh : dictLookup "hash" kvs = some h) :
    (upload_process p file env).1 = RunResult.finished ∧
    (upload_process p file env).2.2.any Event.isRemove = true ∧
    endsWithRemoval p (upload_process p file env).2.2 = true := by
  have h1 : (get_upload_url env.getOut).1 = some kvs :=
    (get_upload_url_some_iff env.getOut kvs).mpr hget
  have hr := run_success p file env kvs u h h1 hu hh
  rw [hr]
  refine ⟨rfl, ?_, ?_⟩
  · simp [List.any_append, Event.isRemove]
  · exact endsWithRemoval_append p _

/-- Witness for C1: destination succeeds, transfer returns 500 and the post call
raises, yet the file is removed. -/
theorem upload_process_deletes_after_dest_success_witness :
    envTransferFails.getOut = GetOutcome.resp 200 (Decoded.ok destOkDict) ∧
    dictLookup "url" destOkDict = some "https://x/up" ∧
    dictLookup "hash" destOkDict = some "abc123" ∧
    (upload_process clipPath clipFile envTransferFails).1 = RunResult.finished ∧
    (upload_process clipPath clipFile envTransferFails).2.2.any Event.isRemove = true ∧
    endsWithRemoval clipPath (upload_process clipPath clipFile envTransferFails).2.2 = true := by
  have h := upload_process_deletes_after_dest_success clipPath clipFile envTransferFails
    destOkDict "https://x/up" "abc123" rfl (by decide) (by decide)
  exact ⟨rfl, by decide, by decide, h.1, h.2.1, h.2.2⟩

/-- C2: the run progresses to the later pipeline steps exactly when
get_upload_url produced a usable destination, and when it returns None the run
aborts with no transfer call, no post call and no file access at all. -/
theorem dest_failure_sole_short_circuit (p : String) (file : List Nat) (env : Env) :
    ((upload_process p file env).1 = RunResult.finished ↔ destSuccess env.getOut = true) ∧
    ((get_upload_url env.getOut).1 = none →
      (upload_process p file env).1 = RunResult.abortedNoDest ∧
      (upload_process p file env).2.2.any Event.isPut = false ∧
      (upload_process p file env).2.2.any Event.isPost = false ∧
      (upload_process p file env).2.2.any Event.touchesFile = false) := by
  rcases h1 : (get_upload_url env.getOut).1 with _ | kvs
  · have hr := run_none p file env h1
    constructor
    · rw [hr]
      simp [destSuccess, h1]
    · intro _
      rw [hr]
      have hp := get_upload_url_events_passive env.getOut
      exact ⟨rfl, any_isPut_eq_false_of_passive _ hp, any_isPost_eq_false_of_passive _ hp,
             any_touchesFile_eq_false_of_passive _ hp⟩
  · cases kvs with
    | nil =>
      have hr := run_empty p file env h1
      constructor
      · rw [hr]
        simp [destSuccess, h1]
      · intro hn
        simp at hn
    | cons kv t =>
      rcases hu : dictLookup "url" (kv :: t) with _ | u
      · have hr := run_keyerr_url p file env (kv :: t) h1 rfl hu
        constructor
        · rw [hr]
          simp [destSuccess, h1, hu]
        · intro hn
          simp at hn
      · rcases hh : dictLookup "hash" (kv :: t) with _ | w
        · have hr := run_keyerr_hash p file env (kv :: t) u h1 rfl hu hh
          constructor
          · rw [hr]
            simp [destSuccess, h1, hu, hh]
          · intro hn
            simp at hn
        · have hr := run_success p file env (kv :: t) u w h1 hu hh
          constructor
          · rw [hr]
            simp [destSuccess, h1, hu, hh]
          · intro hn
            simp at hn

/-- Witness for C2 at a transport failure of the destination request. -/
theorem dest_failure_sole_short_circuit_witness :
    (get_upload_url envGetExn.getOut).1 = none ∧
    (upload_process clipPath clipFile envGetExn).1 = RunResult.abortedNoDest ∧
    (upload_process clipPath clipFile envGetExn).2.2.any Event.isPut = false ∧
    (upload_process clipPath clipFile envGetExn).2.2.any Event.isPost = false ∧
    (upload_process clipPath clipFile envGetExn).2.2.any Event.touchesFile = false := by
  have h := (dest_failure_sole_short_circuit clipPath clipFile envGetExn).2 (by decide)
  exact ⟨by decide, h.1, h.2.1, h.2.2.1, h.2.2.2⟩

/-- C5: every run reaching post creation sends a POST whose JSON body has the
file base name as title, the destination hash, is_available_in_public_feed true
and category_id 25; and every POST of the run has exactly those fields. -/
theorem create_post_body_fields
    (p : String) (file : List Nat) (env : Env) (kvs : Dict) (u h : String)
    (hget : env.getOut = GetOutcome.resp 200 (Decoded.ok kvs))
    (hu : dictLookup "url" kvs = some u)
    (hh : dictLookup "hash" kvs = some h) :
    Event.httpPost postsEndpoint HEADERS
      { title := basename p, hash := h, is_available_in_public_feed := true, category_id := 25 }
      ∈ (upload_process p file env).2.2 ∧
    ∀ url hdrs body, Event.httpPost url hdrs body ∈ (upload_process p file env).2.2 →
      body.title = basename p ∧ body.hash = h ∧
      body.is_available_in_public_feed = true ∧ body.category_id = 25 := by
  have h1 : (get_upload_url env.getOut).1 = some kvs :=
    (get_upload_url_some_iff env.getOut kvs).mpr hget
  have hr := run_success p file env kvs u h h1 hu hh
  rw [hr]
  constructor
  · simp only [List.mem_append]
    exact Or.inl (Or.inr (cp_contains_call (basename p) h 25 env.postOut))
  · intro url hdrs body hmem
    simp only [List.mem_append] at hmem
    rcases hmem with ((hA | hB) | hC) | hD
    · have hp := get_upload_url_events_passive env.getOut
      have hx := (List.all_eq_true.mp hp) _ hA
      simp [passiveB, Event.isPost] at hx
    · have hx := uv_no_post p u
        { desc := "Uploading " ++ basename p, total := file.length, count := 0, closed := false }
        (if env.readOk then ReadResult.ok file else ReadResult.exn) env.putOut
      rw [List.any_eq_false] at hx
      exact absurd rfl (hx _ hB)
    · have hx := cp_posts (basename p) h 25 env.postOut url hdrs body hC
      rcases hx with ⟨-, -, hbody⟩
      rw [hbody]
      exact ⟨rfl, rfl, rfl, rfl⟩
    · simp at hD

/-- Witness for C5 on the fully successful scenario of the spec. -/
theorem create_post_body_fields_witness :
    envAllOk.getOut = GetOutcome.resp 200 (Decoded.ok destOkDict) ∧
    dictLookup "url" destOkDict = some "https://x/up" ∧
    dictLookup "hash" destOkDict = some "abc123" ∧
    Event.httpPost postsEndpoint HEADERS
      { title := basename clipPath, hash := "abc123",
        is_available_in_public_feed := true, category_id := 25 }
      ∈ (upload_process clipPath clipFile envAllOk).2.2 := by
  have h := create_post_body_fields clipPath clipFile envAllOk destOkDict
    "https://x/up" "abc123" rfl (by decide) (by decide)
  exact ⟨rfl, by decide, by decide, h.1⟩

/-- C6: get_upload_url returns the decoded dictionary iff the GET produced
HTTP 200 with a decodable body; in every other case it returns None having
logged an error, and a pipeline run with that outcome aborts with no transfer,
no post and no file access. -/
theorem get_upload_url_success_iff (o : GetOutcome) :
    (∀ kvs : Dict, (get_upload_url o).1 = some kvs ↔ o = GetOutcome.resp 200 (Decoded.ok kvs)) ∧
    ((get_upload_url o).1 = none →
      errorLogged (get_upload_url o).2 = true ∧
      ∀ (p : String) (file : List Nat) (env : Env), env.getOut = o →
        (upload_process p file env).1 = RunResult.abortedNoDest ∧
        (upload_process p file env).2.2.any Event.isPut = false ∧
        (upload_process p file env).2.2.any Event.isPost = false ∧
        (upload_process p file env).2.2.any Event.touchesFile = false) := by
  constructor
  · exact fun kvs => get_upload_url_some_iff o kvs
  · intro hn
    refine ⟨get_upload_url_none_logs o hn, ?_⟩
    intro p file env he
    have h1 : (get_upload_url env.getOut).1 = none := by
      rw [he]
      exact hn
    have hr := run_none p file env h1
    rw [hr]
    have hp := get_upload_url_events_passive env.getOut
    exact ⟨rfl, any_isPut_eq_false_of_passive _ hp, any_isPost_eq_false_of_passive _ hp,
           any_touchesFile_eq_false_of_passive _ hp⟩

/-- Witness for C6 at a non-200 destination response. -/
theorem get_upload_url_success_iff_witness :
    (get_upload_url (GetOutcome.resp 500 (Decoded.ok destOkDict))).1 = none ∧
    errorLogged (get_upload_url (GetOutcome.resp 500 (Decoded.ok destOkDict))).2 = true ∧
    (upload_process clipPath clipFile
      ⟨GetOutcome.resp 500 (Decoded.ok destOkDict), true, PutOutcome.resp 200,
        PostOutcome.resp 200⟩).1 = RunResult.abortedNoDest := by
  have h := (get_upload_url_success_iff (GetOutcome.resp 500 (Decoded.ok destOkDict))).2 (by decide)
  exact ⟨by decide, h.1,
    (h.2 clipPath clipFile
      ⟨GetOutcome.resp 500 (Decoded.ok destOkDict), true, PutOutcome.resp 200,
        PostOutcome.resp 200⟩ rfl).1⟩

/-- C9: a truthy destination dictionary lacking the url or the hash key makes
upload_process raise an uncaught KeyError, with no transfer, no post creation,
no progress bar and no file access. -/
theorem missing_keys_raises_keyerror
    (p : String) (file : List Nat) (env : Env) (kvs : Dict)
    (hget : env.getOut = GetOutcome.resp 200 (Decoded.ok kvs))
    (hne : kvs.isEmpty = false)
    (hmiss : dictLookup "url" kvs = none ∨ dictLookup "hash" kvs = none) :
    ((upload_process p file env).1 = RunResult.raisedKeyError "url" ∨
     (upload_process p file env).1 = RunResult.raisedKeyError "hash") ∧
    (upload_process p file env).2.1 = none ∧
    (upload_process p file env).2.2.any Event.isPut = false ∧
    (upload_process p file env).2.2.any Event.isPost = false ∧
    (upload_process p file env).2.2.any Event.touchesFile = false := by
  have h1 : (get_upload_url env.getOut).1 = some kvs :=
    (get_upload_url_some_iff env.getOut kvs).mpr hget
  have hp := get_upload_url_events_passive env.getOut
  rcases hu : dictLookup "url" kvs with _ | u
  · have hr := run_keyerr_url p file env kvs h1 hne hu
    rw [hr]
    exact ⟨Or.inl rfl, rfl, any_isPut_eq_false_of_passive _ hp,
           any_isPost_eq_false_of_passive _ hp, any_touchesFile_eq_false_of_passive _ hp⟩
  · rcases hh : dictLookup "hash" kvs with _ | w
    · have hr := run_keyerr_hash p file env kvs u h1 hne hu hh
      rw [hr]
      exact ⟨Or.inr rfl, rfl, any_isPut_eq_false_of_passive _ hp,
             any_isPost_eq_false_of_passive _ hp, any_touchesFile_eq_false_of_passive _ hp⟩
    · rcases hmiss with hm | hm
      · rw [hu] at hm
        simp at hm
      · rw [hh] at hm
        simp at hm

/-- Witness for C9 at a 200 response whose body is a dict without url. -/
theorem missing_keys_raises_keyerror_witness :
    envMissingKeys.getOut = GetOutcome.resp 200 (Decoded.ok [("foo", "bar")]) ∧
    ([("foo", "bar")] : Dict).isEmpty = false ∧
    dictLookup "url" [("foo", "bar")] = none ∧
    ((upload_process clipPath clipFile envMissingKeys).1 = RunResult.raisedKeyError "url" ∨
     (upload_process clipPath clipFile envMissingKeys).1 = RunResult.raisedKeyError "hash") ∧
    (upload_process clipPath clipFile envMissingKeys).2.2.any Event.isPut = false := by
  have h := missing_keys_raises_keyerror clipPath clipFile envMissingKeys [("foo", "bar")]
    rfl (by decide) (Or.inl (by decide))
  exact ⟨rfl, by decide, by decide, h.1, h.2.2.1⟩

/-- C4 counterexample: in the fully successful concrete run a raw-byte PUT is
issued, yet no PUT of the run carries the shared credential and content-type
headers — the PUT is sent through a fresh session with no headers argument. -/
theorem put_lacks_shared_headers :
    (upload_process clipPath clipFile envAllOk).2.2.any Event.isPut = true ∧
    (upload_process clipPath clipFile envAllOk).2.2.any putWithSharedHeaders = false := by
  decide

/-- C4 amended: the destination GET and the post-creation POST carry the shared
static credential and Content-Type headers, while the raw-byte PUT is sent with
no application-supplied headers at all; the GET with those headers is issued on
every run. -/
theorem headers_on_get_and_post_not_put (p : String) (file : List Nat) (env : Env) :
    (upload_process p file env).2.2.all headerOk = true ∧
    Event.httpGet uploadUrlEndpoint HEADERS ∈ (upload_process p file env).2.2 := by
  rcases run_trace_cases p file env with htr | ⟨kvs, u, h, h1, hu, hh, htr⟩
  · rw [htr]
    exact ⟨get_headerOk _, get_contains_call _⟩
  · rw [htr]
    constructor
    · simp only [List.all_append, Bool.and_eq_true]
      refine ⟨⟨⟨get_headerOk _, uv_headerOk p u (mkBar p file) (mkRead env file) env.putOut⟩,
        cp_headerOk (basename p) h 25 env.postOut⟩, ?_⟩
      simp [headerOk]
    · simp only [List.mem_append]
      exact Or.inl (Or.inl (Or.inl (get_contains_call _)))

/-- C7: whenever a run creates the progress indicator, its total is the file's
byte size; if the read completes it is advanced exactly once, by the full byte
length, immediately after the read; if the read fails it is never advanced; and
its final count never exceeds its total. -/
theorem progress_bar_invariants (p : String) (file : List Nat) (env : Env) (b : Bar)
    (hb : (upload_process p file env).2.1 = some b) :
    b.total = file.length ∧ b.count ≤ b.total ∧
    (env.readOk = true →
      (upload_process p file env).2.2.filter Event.isBarUpdate
        = [Event.barUpdate file.length] ∧
      adjacentPair (Event.fileRead p) (Event.barUpdate file.length)
        (upload_process p file env).2.2 = true) ∧
    (env.readOk = false →
      (upload_process p file env).2.2.filter Event.isBarUpdate = []) := by
  rcases h1 : (get_upload_url env.getOut).1 with _ | kvs
  · rw [run_none p file env h1] at hb
    simp at hb
  · cases kvs with
    | nil =>
      rw [run_empty p file env h1] at hb
      simp at hb
    | cons kv t =>
      rcases hu : dictLookup "url" (kv :: t) with _ | u
      · rw [run_keyerr_url p file env (kv :: t) h1 rfl hu] at hb
        simp at hb
      · rcases hh : dictLookup "hash" (kv :: t) with _ | w
        · rw [run_keyerr_hash p file env (kv :: t) u h1 rfl hu hh] at hb
          simp at hb
        · have hr := run_success_mk p file env (kv :: t) u w h1 hu hh
          rw [hr] at hb
          simp only [Option.some.injEq] at hb
          have hg := filter_barUpdate_eq_nil_of_passive _ (get_upload_url_events_passive env.getOut)
          cases hro : env.readOk with
          | true =>
            have hread : mkRead env file = ReadResult.ok file := by
              simp [mkRead, hro]
            rw [hread] at hb
            refine ⟨?_, ?_, ?_, ?_⟩
            · rw [← hb]
              simp [Bar.close, uv_bar_total, mkBar]
            · rw [← hb]
              simp [Bar.close, uv_bar_total, uv_bar_count_ok, mkBar]
            · intro _
              rw [hr, hread]
              constructor
              · simp [List.filter_append, hg,
                  uv_filter_barUpdate_ok p u (mkBar p file) file env.putOut,
                  cp_filter_barUpdate, List.filter, Event.isBarUpdate]
              · have ha := uv_adjacent p u (mkBar p file) file env.putOut
                have h2 := adjacentPair_append_left _ _ (get_upload_url env.getOut).2 _ ha
                have h3 := adjacentPair_append_right _ _ _
                  (create_post (basename p) w 25 env.postOut) h2
                exact adjacentPair_append_right _ _ _
                  [Event.fileRemove p, Event.log (LogEvent.info "Deleted local file")] h3
            · intro hfalse
              exact Bool.noConfusion hfalse
          | false =>
            have hread : mkRead env file = ReadResult.exn := by
              simp [mkRead, hro]
            rw [hread] at hb
            refine ⟨?_, ?_, ?_, ?_⟩
            · rw [← hb]
              simp [Bar.close, uv_bar_total, mkBar]
            · rw [← hb]
              simp [Bar.close, uv_bar_total, uv_bar_count_exn, mkBar]
            · intro htrue
              exact Bool.noConfusion htrue
            · intro _
              rw [hr, hread]
              simp [List.filter_append, hg,
                uv_filter_barUpdate_exn p u (mkBar p file) env.putOut,
                cp_filter_barUpdate, List.filter, Event.isBarUpdate]

/-- Witness for C7 on a successful run of a two-byte file. -/
theorem progress_bar_invariants_witness :
    (upload_process clipPath clipFile envAllOk).2.1
      = some { desc := "Uploading clip.mp4", total := 2, count := 2, closed := true } ∧
    ({ desc := "Uploading clip.mp4", total := 2, count := 2, closed := true } : Bar).total
      = clipFile.length ∧
    (upload_process clipPath clipFile envAllOk).2.2.filter Event.isBarUpdate
      = [Event.barUpdate clipFile.length] := by
  have hb : (upload_process clipPath clipFile envAllOk).2.1
      = some { desc := "Uploading clip.mp4", total := 2, count := 2, closed := true } := by
    decide
  have h := progress_bar_invariants clipPath clipFile envAllOk
    { desc := "Uploading clip.mp4", total := 2, count := 2, closed := true } hb
  exact ⟨hb, h.1, (h.2.2.1 rfl).1⟩

/-- C8: a creation event schedules either exactly one pipeline run (for its own
path) or none, and it schedules one precisely when the path ends with the
suffix .mp4. -/
theorem on_created_schedules_iff_mp4 (e : FSEvent) :
    (on_created e = [e.src_path] ∨ on_created e = []) ∧
    (on_created e = [e.src_path] ↔ ∃ pre : String, e.src_path = pre ++ ".mp4") := by
  by_cases hs : strEndsWith e.src_path ".mp4" = true
  · refine ⟨Or.inl ?_, ?_, ?_⟩
    · simp [on_created, hs]
    · intro _
      exact (strEndsWith_iff _ _).mp hs
    · intro _
      simp [on_created, hs]
  · rw [Bool.not_eq_true] at hs
    refine ⟨Or.inr ?_, ?_, ?_⟩
    · simp [on_created, hs]
    · intro hone
      simp [on_created, hs] at hone
    · rintro ⟨pre, hpre⟩
      have hcontra := (strEndsWith_iff e.src_path ".mp4").mpr ⟨pre, hpre⟩
      rw [hs] at hcontra
      cases hcontra

/-- Witness for C8: the concrete .mp4 path is scheduled exactly once. -/
theorem on_created_schedules_iff_mp4_witness :
    on_created ⟨clipPath, false⟩ = [clipPath] :=
  (on_created_schedules_iff_mp4 ⟨clipPath, false⟩).2.mpr ⟨"./videos/clip", by decide⟩

/-- C10: the creation-event filter never inspects the is_directory flag, so a
created directory whose name ends in .mp4 schedules a pipeline run too. -/
theorem on_created_ignores_directory_flag (p : String) (d : Bool) :
    on_created ⟨p, d⟩ = on_created ⟨p, false⟩ ∧
    ((∃ pre : String, p = pre ++ ".mp4") → on_created ⟨p, true⟩ = [p]) := by
  constructor
  · rfl
  · rintro ⟨pre, hpre⟩
    have hs := (strEndsWith_iff p ".mp4").mpr ⟨pre, hpre⟩
    simp [on_created, hs]

/-- Witness for C10: a directory creation event for folder.mp4 is scheduled. -/
theorem on_created_ignores_directory_flag_witness :
    on_created ⟨"./videos/folder.mp4", true⟩ = ["./videos/folder.mp4"] ∧
    on_created ⟨"./videos/folder.mp4", true⟩ = on_created ⟨"./videos/folder.mp4", false⟩ := by
  have h := on_created_ignores_directory_flag "./videos/folder.mp4" true
  exact ⟨h.2 ⟨"./videos/folder", by decide⟩, h.1⟩

/-- C3 counterexample: a 200 destination response decodable into a truthy dict
that lacks the url key makes the run end in an uncaught KeyError — an error
escaping the pipeline — and no error is logged anywhere in that run. -/
theorem protocol_error_escapes_pipeline :
    (upload_process clipPath clipFile envMissingKeys).1 = RunResult.raisedKeyError "url" ∧
    errorLogged (upload_process clipPath clipFile envMissingKeys).2.2 = false := by
  decide

/-- C3 amended: provided the destination body, whenever it decodes to a truthy
dict, carries both the url and hash keys, every run terminates normally
(finished or aborted, never with an escaping error); every failure of any of
the four kinds — transport or non-200 or undecodable body at the GET, read
failure, transport or non-200 at the PUT or the POST — leaves an error log in
the run's trace; and the set of runs the watcher schedules for later events
never depends on the outcomes of the pipelines. -/
theorem errors_logged_and_swallowed_when_body_wellformed
    (p : String) (file : List Nat) (env : Env)
    (evts : List FSEvent) (files : String → List Nat) (envs : String → Env)
    (hwf : wellFormedBody env.getOut = true) :
    ((upload_process p file env).1 = RunResult.finished ∨
     (upload_process p file env).1 = RunResult.abortedNoDest) ∧
    (anyFailure env = true → errorLogged (upload_process p file env).2.2 = true) ∧
    (process_events evts files envs).map Prod.fst = scheduled_runs evts := by
  have main : ((upload_process p file env).1 = RunResult.finished ∨
      (upload_process p file env).1 = RunResult.abortedNoDest) ∧
      (anyFailure env = true → errorLogged (upload_process p file env).2.2 = true) := ?_
  · exact ⟨main.1, main.2, process_events_fst evts files envs⟩
  rcases h1 : (get_upload_url env.getOut).1 with _ | kvs
  · have hr := run_none p file env h1
    refine ⟨Or.inr (by rw [hr]), ?_⟩
    intro _
    rw [hr]
    exact get_upload_url_none_logs env.getOut h1
  · cases kvs with
    | nil =>
      have hr := run_empty p file env h1
      refine ⟨Or.inr (by rw [hr]), ?_⟩
      intro hf
      rw [anyFailure, getFailed, destSuccess, h1] at hf
      simp at hf
    | cons kv t =>
      rw [wellFormedBody, h1] at hwf
      simp only [List.isEmpty_cons, Bool.false_or, Bool.and_eq_true,
        Option.isSome_iff_exists] at hwf
      obtain ⟨⟨u, hu⟩, w, hh⟩ := hwf
      have hr := run_success_mk p file env (kv :: t) u w h1 hu hh
      refine ⟨Or.inl (by rw [hr]), ?_⟩
      intro hf
      have hds : destSuccess env.getOut = true := by
        rw [destSuccess, h1]
        simp [hu, hh]
      have hgf : getFailed env.getOut = false := by
        rw [getFailed, h1]
        rfl
      rw [anyFailure, hgf, hds] at hf
      rw [Bool.false_or, Bool.true_and, Bool.or_eq_true, Bool.or_eq_true] at hf
      rw [hr]
      simp only [errorLogged, List.any_append, Bool.or_eq_true]
      rcases hf with (hf | hf) | hf
      · rw [Bool.not_eq_true'] at hf
        have hread : mkRead env file = ReadResult.exn := by
          simp [mkRead, hf]
        rw [hread]
        have hx := uv_error_log_readExn p u (mkBar p file) env.putOut
        rw [errorLogged] at hx
        exact Or.inl (Or.inl (Or.inr hx))
      · cases hro : env.readOk with
        | false =>
          have hread : mkRead env file = ReadResult.exn := by
            simp [mkRead, hro]
          rw [hread]
          have hx := uv_error_log_readExn p u (mkBar p file) env.putOut
          rw [errorLogged] at hx
          exact Or.inl (Or.inl (Or.inr hx))
        | true =>
          have hread : mkRead env file = ReadResult.ok file := by
            simp [mkRead, hro]
          rw [hread]
          have hx := uv_error_log_putFailed p u (mkBar p file) file env.putOut hf
          rw [errorLogged] at hx
          exact Or.inl (Or.inl (Or.inr hx))
      · have hx := cp_error_log (basename p) w 25 env.postOut hf
        rw [errorLogged] at hx
        exact Or.inl (Or.inr hx)

/-- Witness for C3 amended: a well-formed destination with a failing transfer
and post; the run finishes, the failures are logged, and the scheduled runs of
a later event are untouched. -/
theorem errors_logged_and_swallowed_when_body_wellformed_witness :
    wellFormedBody envTransferFails.getOut = true ∧
    anyFailure envTransferFails = true ∧
    ((upload_process clipPath clipFile envTransferFails).1 = RunResult.finished ∨
     (upload_process clipPath clipFile envTransferFails).1 = RunResult.abortedNoDest) ∧
    errorLogged (upload_process clipPath clipFile envTransferFails).2.2 = true ∧
    (process_events [⟨clipPath, false⟩] (fun _ => clipFile)
        (fun _ => envTransferFails)).map Prod.fst
      = scheduled_runs [⟨clipPath, false⟩] := by
  have h := errors_logged_and_swallowed_when_body_wellformed clipPath clipFile envTransferFails
    [⟨clipPath, false⟩] (fun _ => clipFile) (fun _ => envTransferFails) (by decide)
  exact ⟨by decide, by decide, h.1, h.2.1 (by decide), h.2.2⟩

end VideoBot
